import Mathlib

/-!
Shallow embedding of `pkg/config/integration_config.go` from the
datadog-log-agent repository.

Modelling conventions:
* Go strings are Lean `String`s.  Go byte slices (`[]byte`) built from UTF-8
  string data are modelled by the strings themselves: byte-level concatenation
  of UTF-8 encodings corresponds exactly to `String.append`, and a byte slice
  is empty iff the string is empty.
* Nil-able Go values (`*regexp.Regexp`, a nil `[]byte`) are modelled with
  `Option`; `none` is Go's `nil`.
* A compiled `*regexp.Regexp` is represented by the pattern string it was
  compiled from; whether `regexp.Compile` succeeds on a pattern is an
  external-library fact, so functions that compile patterns take a parameter
  `valid : String → Bool` standing for "the Go regexp library accepts this
  pattern".
* Go functions returning `error` are modelled with `Option String`
  (`none` = nil error) when they return nothing else, and with `GoResult`
  when a Go panic is also a possible outcome (`regexp.MustCompile` panics
  on an invalid pattern).
* `ioutil.ReadDir` is modelled by its result: `Except String (List String)`
  (an error, or the directory entry names in listing order).
* `viper` parsing of one file (`ReadInConfig` followed by `Unmarshal`) is
  modelled by a parameter `parse : String → Except String IntegrationConfig`.
* The process-wide registry slot `LogsAgent`'s `LogsRules` key is modelled as
  an `Option (List IntegrationConfigLogSource)` threaded in and out of the
  load operation; `config.Set` replaces it.
* The constant `DeprecatedConfig` is declared in a file of the package that is
  not part of the sources at hand; it is passed as a parameter
  `deprecatedConfig : String` (the reserved deprecated-config base name).
-/

/-- Outcome of running a piece of Go code that can return normally,
return an error, or panic. -/
inductive GoResult (α : Type) where
  | ok (val : α)
  | err (msg : String)
  | panicked (msg : String)
deriving DecidableEq, Repr

def GoResult.toOption {α : Type} : GoResult α → Option α
  | .ok a => some a
  | .err _ => none
  | .panicked _ => none

/-- Constant `TCP_TYPE` of `integration_config.go`. -/
def TCP_TYPE : String := "tcp"

/-- Constant `UDP_TYPE` of `integration_config.go`. -/
def UDP_TYPE : String := "udp"

/-- Constant `FILE_TYPE` of `integration_config.go`. -/
def FILE_TYPE : String := "file"

/-- Constant `EXCLUDE_AT_MATCH` of `integration_config.go`. -/
def EXCLUDE_AT_MATCH : String := "exclude_at_match"

/-- Constant `MASK_SEQUENCES` of `integration_config.go`. -/
def MASK_SEQUENCES : String := "mask_sequences"

/-- Go struct `LogsProcessingRule`.  `Reg` (a `*regexp.Regexp`) is modelled by
the pattern it was compiled from, `ReplacePlaceholderBytes` (a `[]byte`) by the
string whose bytes it holds; both are `none` when nil. -/
structure LogsProcessingRule where
  «Type» : String
  Name : String
  ReplacePlaceholder : String
  Pattern : String
  Reg : Option String
  ReplacePlaceholderBytes : Option String
deriving DecidableEq, Repr

/-- Go struct `IntegrationConfigLogSource`.  `TagsPayload` (a `[]byte`) is
modelled as `Option String`, `none` when nil (not yet computed). -/
structure IntegrationConfigLogSource where
  «Type» : String
  Port : Int
  Path : String
  Service : String
  Logset : String
  Source : String
  SourceCategory : String
  Tags : String
  TagsPayload : Option String
  ProcessingRules : List LogsProcessingRule
deriving DecidableEq, Repr

/-- Go struct `IntegrationConfig`. -/
structure IntegrationConfig where
  Logs : List IntegrationConfigLogSource
deriving DecidableEq, Repr

/-- `validateSource` of `integration_config.go`: `none` models a nil error,
`some msg` an error with message `msg`. -/
def validateSource (config : IntegrationConfigLogSource) : Option String :=
  if config.«Type» = FILE_TYPE ∨ config.«Type» = TCP_TYPE ∨ config.«Type» = UDP_TYPE then
    if config.«Type» = FILE_TYPE ∧ config.Path = "" then
      some "A file source must have a path"
    else if config.«Type» = TCP_TYPE ∧ config.Port = 0 then
      some "A tcp source must have a port"
    else if config.«Type» = UDP_TYPE ∧ config.Port = 0 then
      some "A udp source must have a port"
    else
      none
  else
    some ("A source must have a valid type (got " ++ config.«Type» ++ ")")

/-- `validateProcessingRules` of `integration_config.go`.  The parameter
`valid` models acceptance by the Go regexp compiler; `regexp.MustCompile`
on a pattern rejected by the compiler panics, which the model records as
`GoResult.panicked`. -/
def validateProcessingRules (valid : String → Bool) :
    List LogsProcessingRule → GoResult (List LogsProcessingRule)
  | [] => .ok []
  | rule :: rest =>
    if rule.Name = "" then
      .err "LogsAgent misconfigured: all log processing rules need a name"
    else if rule.«Type» = EXCLUDE_AT_MATCH then
      if valid rule.Pattern then
        match validateProcessingRules valid rest with
        | .ok rs => .ok ({ rule with Reg := some rule.Pattern } :: rs)
        | .err e => .err e
        | .panicked e => .panicked e
      else
        .panicked ("regexp: Compile(" ++ rule.Pattern ++ "): error parsing regexp")
    else if rule.«Type» = MASK_SEQUENCES then
      if valid rule.Pattern then
        match validateProcessingRules valid rest with
        | .ok rs =>
          .ok ({ rule with
                  Reg := some rule.Pattern,
                  ReplacePlaceholderBytes := some rule.ReplacePlaceholder } :: rs)
        | .err e => .err e
        | .panicked e => .panicked e
      else
        .panicked ("regexp: Compile(" ++ rule.Pattern ++ "): error parsing regexp")
    else if rule.«Type» = "" then
      .err ("LogsAgent misconfigured: type must be set for log processing rule \x60"
            ++ rule.Name ++ "\x60")
    else
      .err ("LogsAgent misconfigured: type " ++ rule.«Type»
            ++ " is unsupported for log processing rule \x60" ++ rule.Name ++ "\x60")

/-- `buildTagsPayload` of `integration_config.go`.  The Go function builds a
`[]byte` by appending UTF-8 fragments; the model builds the corresponding
string.  `len(tagsPayload) == 0` is modelled by `String.length = 0`. -/
def buildTagsPayload (configTags source sourceCategory : String) : String :=
  let tagsPayload := ""
  let tagsPayload :=
    if source ≠ "" then
      tagsPayload ++ "[dd ddsource=\"" ++ source ++ "\"]"
    else tagsPayload
  let tagsPayload :=
    if sourceCategory ≠ "" then
      tagsPayload ++ "[dd ddsourcecategory=\"" ++ sourceCategory ++ "\"]"
    else tagsPayload
  let tagsPayload :=
    if configTags ≠ "" then
      tagsPayload ++ "[dd ddtags=\"" ++ configTags ++ "\"]"
    else tagsPayload
  if tagsPayload.length = 0 then "-" else tagsPayload

/-- Helper for `goExt`: scans the characters of the file name from the end
(the argument is the reversed character list), carrying in `acc` the
characters already passed, in original order.  Mirrors the loop of Go's
`filepath.Ext`: stop at a path separator, return the suffix from the last
dot. -/
def goExtAux : List Char → List Char → List Char
  | [], _ => []
  | c :: rest, acc =>
    if c = '/' then []
    else if c = '.' then c :: acc
    else goExtAux rest (c :: acc)

/-- Go's `filepath.Ext`: the suffix beginning at the final dot in the final
slash-separated element of the path; empty if there is no dot.  Directory
entry names never contain a separator, and a `'.'` byte in UTF-8 only occurs
as the character `'.'`, so the character-level model coincides with Go's
byte-level loop. -/
def goExt (path : String) : String := ⟨goExtAux path.data.reverse []⟩

/-- The expression `filename[0 : len(filename)-len(extension)]` of
`availableIntegrationConfigs`: since the extension is a suffix of the file
name, dropping its length keeps exactly the part before the final dot. -/
def stripExt (filename : String) : String :=
  ⟨filename.data.take (filename.data.length - (goExt filename).data.length)⟩

/-- `availableIntegrationConfigs` of `integration_config.go`.  `readDir`
models the `ioutil.ReadDir` call; its error is discarded (`files, _ := ...`),
leaving a nil entry list. -/
def availableIntegrationConfigs (deprecatedConfig : String)
    (readDir : Except String (List String)) : List String :=
  let files := match readDir with
    | .ok fs => fs
    | .error _ => []
  files.foldl
    (fun acc filename =>
      let ext := goExt filename
      let name := stripExt filename
      if ext = ".yaml" ∧ name ≠ deprecatedConfig then acc ++ [name] else acc)
    []

/-- Body of the inner `for` loop of `buildLogsAgentIntegrationsConfig` for one
log source: validate the source, validate and compile its processing rules,
compute its tags payload. -/
def processSource (valid : String → Bool) (s : IntegrationConfigLogSource) :
    GoResult IntegrationConfigLogSource :=
  match validateSource s with
  | some e => .err e
  | none =>
    match validateProcessingRules valid s.ProcessingRules with
    | .err e => .err e
    | .panicked e => .panicked e
    | .ok rules =>
      .ok { s with
              ProcessingRules := rules,
              TagsPayload := some (buildTagsPayload s.Tags s.Source s.SourceCategory) }

/-- The inner `for` loop of `buildLogsAgentIntegrationsConfig` over the log
sources of one parsed file, in declaration order; the first error or panic
aborts the whole loop. -/
def processSources (valid : String → Bool) :
    List IntegrationConfigLogSource → GoResult (List IntegrationConfigLogSource)
  | [] => .ok []
  | s :: rest =>
    match processSource valid s with
    | .err e => .err e
    | .panicked e => .panicked e
    | .ok s2 =>
      match processSources valid rest with
      | .ok rs => .ok (s2 :: rs)
      | .err e => .err e
      | .panicked e => .panicked e

/-- The outer `for` loop of `buildLogsAgentIntegrationsConfig` over the
discovered file names, in discovery order: parse each file (`ReadInConfig`
then `Unmarshal`, modelled by `parse`), then process its sources; the first
error or panic aborts the whole loop. -/
def processFiles (valid : String → Bool)
    (parse : String → Except String IntegrationConfig) :
    List String → GoResult (List IntegrationConfigLogSource)
  | [] => .ok []
  | f :: rest =>
    match parse f with
    | .error e => .err e
    | .ok cfg =>
      match processSources valid cfg.Logs with
      | .err e => .err e
      | .panicked e => .panicked e
      | .ok ss =>
        match processFiles valid parse rest with
        | .ok rs => .ok (ss ++ rs)
        | .err e => .err e
        | .panicked e => .panicked e

/-- `buildLogsAgentIntegrationsConfig` of `integration_config.go`.  `slot` is
the current value of the registry entry under the `LogsRules` key; the result
pairs the final value of that entry with the function's outcome.  `config.Set`
runs only after every file succeeded; an error returns before it, and a panic
unwinds past it, so in both cases the entry keeps its previous value. -/
def buildLogsAgentIntegrationsConfig (valid : String → Bool)
    (readDir : Except String (List String))
    (parse : String → Except String IntegrationConfig)
    (deprecatedConfig : String)
    (slot : Option (List IntegrationConfigLogSource)) :
    Option (List IntegrationConfigLogSource) × GoResult Unit :=
  let files := availableIntegrationConfigs deprecatedConfig readDir
  match processFiles valid parse files with
  | .err e => (slot, .err e)
  | .panicked e => (slot, .panicked e)
  | .ok srcs => (some srcs, .ok ())

/-- Spec-side description of the sources contributed by one discovered file
(§4.1 step 3 of the spec): the file's log sources in declaration order, each
enriched by validation; used to state the aggregation-order property. -/
def processedLogsOf (valid : String → Bool)
    (parse : String → Except String IntegrationConfig) (f : String) :
    List IntegrationConfigLogSource :=
  match parse f with
  | .error _ => []
  | .ok cfg => cfg.Logs.filterMap (fun s => (processSource valid s).toOption)

/-! ## Helper lemmas -/

/-- The `foldl` of `availableIntegrationConfigs` appends exactly the stripped
names of the selected files to its accumulator. -/
theorem availableIntegrationConfigs_foldl (deprecatedConfig : String)
    (files : List String) (acc : List String) :
    files.foldl
      (fun acc filename =>
        let ext := goExt filename
        let name := stripExt filename
        if ext = ".yaml" ∧ name ≠ deprecatedConfig then acc ++ [name] else acc)
      acc =
    acc ++ (files.filter
      (fun f => decide (goExt f = ".yaml" ∧ stripExt f ≠ deprecatedConfig))).map stripExt := by
  induction files generalizing acc with
  | nil => simp
  | cons f fs ih =>
    by_cases hf : goExt f = ".yaml" ∧ stripExt f ≠ deprecatedConfig <;>
      simp [List.foldl_cons, List.filter_cons, hf, ih]

/-- A successful `processSources` run returns exactly the enriched sources of
its input, in order. -/
theorem processSources_ok_eq (valid : String → Bool)
    (l : List IntegrationConfigLogSource) (out : List IntegrationConfigLogSource)
    (h : processSources valid l = .ok out) :
    out = l.filterMap (fun s => (processSource valid s).toOption) := by
  induction l generalizing out with
  | nil =>
    simp [processSources] at h
    simp [h]
  | cons s rest ih =>
    unfold processSources at h
    rcases hs : processSource valid s with s2 | e | e <;> simp only [hs] at h
    · rcases hrec : processSources valid rest with rs | e | e <;> simp only [hrec] at h
      · injection h with h
        subst h
        simp [List.filterMap_cons, hs, GoResult.toOption, ih rs hrec]
      · exact absurd h (by simp)
      · exact absurd h (by simp)
    · exact absurd h (by simp)
    · exact absurd h (by simp)

/-- A successful `processFiles` run returns exactly the concatenation, in
discovery order, of the enriched sources of each file. -/
theorem processFiles_ok_eq (valid : String → Bool)
    (parse : String → Except String IntegrationConfig)
    (names : List String) (out : List IntegrationConfigLogSource)
    (h : processFiles valid parse names = .ok out) :
    out = names.flatMap (processedLogsOf valid parse) := by
  induction names generalizing out with
  | nil =>
    simp [processFiles] at h
    simp [h]
  | cons f rest ih =>
    unfold processFiles at h
    rcases hp : parse f with e | cfg <;> simp only [hp] at h
    · exact absurd h (by simp)
    · rcases hs : processSources valid cfg.Logs with ss | e | e <;> simp only [hs] at h
      · rcases hrec : processFiles valid parse rest with rs | e | e <;> simp only [hrec] at h
        · injection h with h
          subst h
          simp [List.flatMap_cons, processedLogsOf, hp, ih rs hrec,
            processSources_ok_eq valid cfg.Logs ss hs]
        · exact absurd h (by simp)
        · exact absurd h (by simp)
      · exact absurd h (by simp)
      · exact absurd h (by simp)

/-! ## Claim theorems -/

/-- C1: for every triple of strings `(tags, source, sourceCategory)`,
`buildTagsPayload` returns exactly the concatenation, in fixed order, of the
`[dd ddsource="..."]`, `[dd ddsourcecategory="..."]` and `[dd ddtags="..."]`
fragments for the non-empty inputs, and the single byte `'-'` when all three
are empty. -/
theorem buildTagsPayload_spec (tags source sourceCategory : String) :
    buildTagsPayload tags source sourceCategory =
      if tags = "" ∧ source = "" ∧ sourceCategory = "" then "-"
      else
        (if source = "" then "" else "[dd ddsource=\"" ++ source ++ "\"]") ++
        (if sourceCategory = "" then ""
         else "[dd ddsourcecategory=\"" ++ sourceCategory ++ "\"]") ++
        (if tags = "" then "" else "[dd ddtags=\"" ++ tags ++ "\"]") := by
  unfold buildTagsPayload
  by_cases hs : source = "" <;> by_cases hc : sourceCategory = "" <;> by_cases ht : tags = "" <;>
    simp [hs, hc, ht, String.length_append,
      show ("[dd ddsource=\"" : String).length = 14 from rfl,
      show ("[dd ddsourcecategory=\"" : String).length = 22 from rfl,
      show ("[dd ddtags=\"" : String).length = 12 from rfl,
      show ("\"]" : String).length = 2 from rfl] <;>
    (apply String.ext; simp [String.data_append])

/-- C3: `validateSource` reports an error exactly when the source type is not
one of file/tcp/udp, or a file source has an empty path, or a tcp/udp source
has port 0. -/
theorem validateSource_spec (c : IntegrationConfigLogSource) :
    validateSource c ≠ none ↔
      (¬(c.«Type» = FILE_TYPE ∨ c.«Type» = TCP_TYPE ∨ c.«Type» = UDP_TYPE)) ∨
      (c.«Type» = FILE_TYPE ∧ c.Path = "") ∨
      ((c.«Type» = TCP_TYPE ∨ c.«Type» = UDP_TYPE) ∧ c.Port = 0) := by
  unfold validateSource
  split_ifs with h1 h2 h3 h4 <;> simp_all [FILE_TYPE, TCP_TYPE, UDP_TYPE]
  all_goals tauto

/-- C9: for a tcp or udp source, `validateSource` accepts every non-zero port
value — there is no range check, so negative ports and ports above 65535 pass. -/
theorem validateSource_port_no_range_check (c : IntegrationConfigLogSource)
    (h : c.«Type» = TCP_TYPE ∨ c.«Type» = UDP_TYPE) :
    validateSource c = none ↔ c.Port ≠ 0 := by
  unfold validateSource
  rcases h with h | h <;> simp_all [FILE_TYPE, TCP_TYPE, UDP_TYPE]

/-- Witness for C9: a tcp source with port -5 and a udp source with port
70000 both pass validation. -/
theorem validateSource_port_no_range_check_witness :
    validateSource { «Type» := "tcp", Port := -5, Path := "", Service := "",
                     Logset := "", Source := "", SourceCategory := "", Tags := "",
                     TagsPayload := none, ProcessingRules := [] } = none ∧
    validateSource { «Type» := "udp", Port := 70000, Path := "", Service := "",
                     Logset := "", Source := "", SourceCategory := "", Tags := "",
                     TagsPayload := none, ProcessingRules := [] } = none :=
  ⟨(validateSource_port_no_range_check _ (Or.inl rfl)).mpr (by decide),
   (validateSource_port_no_range_check _ (Or.inr rfl)).mpr (by decide)⟩

/-! ## Sample inputs used by witnesses -/

/-- A log source with all fields at their Go zero values. -/
def emptyLogSource : IntegrationConfigLogSource :=
  { «Type» := "", Port := 0, Path := "", Service := "", Logset := "", Source := "",
    SourceCategory := "", Tags := "", TagsPayload := none, ProcessingRules := [] }

/-- A processing rule with all fields at their Go zero values. -/
def emptyRule : LogsProcessingRule :=
  { «Type» := "", Name := "", ReplacePlaceholder := "", Pattern := "",
    Reg := none, ReplacePlaceholderBytes := none }

/-- An exclusion rule whose pattern has an unmatched parenthesis. -/
def badPatternRule : LogsProcessingRule :=
  { emptyRule with «Type» := "exclude_at_match", Name := "drop-secrets", Pattern := "(" }

/-- A well-formed exclusion rule. -/
def goodExcludeRule : LogsProcessingRule :=
  { emptyRule with «Type» := "exclude_at_match", Name := "keep", Pattern := "a+" }

/-- A well-formed masking rule. -/
def maskRuleSample : LogsProcessingRule :=
  { emptyRule with
    «Type» := "mask_sequences", Name := "mask-cc"
    ReplacePlaceholder := "[masked]", Pattern := "[0-9]+" }

/-- A rule with an empty name. -/
def namelessRule : LogsProcessingRule :=
  { emptyRule with «Type» := "mask_sequences", Name := "", Pattern := "x" }

/-- A rule with an unsupported type. -/
def unsupportedRule : LogsProcessingRule :=
  { emptyRule with «Type» := "bogus", Name := "r2" }

/-- A valid file source. -/
def fileSourceA1 : IntegrationConfigLogSource :=
  { emptyLogSource with
    «Type» := "file", Path := "/var/log/one.log"
    Source := "nginx", SourceCategory := "webserver", Tags := "env:prod" }

/-- A second valid file source. -/
def fileSourceA2 : IntegrationConfigLogSource :=
  { emptyLogSource with «Type» := "file", Path := "/var/log/two.log" }

/-- A valid tcp source. -/
def tcpSourceB1 : IntegrationConfigLogSource :=
  { emptyLogSource with «Type» := "tcp", Port := 10514 }

/-- A parse function mapping file `a` to two sources and file `b` to one. -/
def sampleParse : String → Except String IntegrationConfig := fun f =>
  if f = "a" then .ok ⟨[fileSourceA1, fileSourceA2]⟩
  else if f = "b" then .ok ⟨[tcpSourceB1]⟩
  else .error "unknown file"

/-! ## Remaining claim theorems -/

/-- C2: a processing rule of type `exclude_at_match` or `mask_sequences`
whose pattern the regexp compiler rejects makes `validateProcessingRules`
panic (`regexp.MustCompile`), not return an error: the load operation
crashes instead of surfacing the failure to its caller. -/
theorem validateProcessingRules_invalid_pattern_panics
    (valid : String → Bool) (rule : LogsProcessingRule) (rest : List LogsProcessingRule)
    (hname : rule.Name ≠ "")
    (htype : rule.«Type» = EXCLUDE_AT_MATCH ∨ rule.«Type» = MASK_SEQUENCES)
    (hpat : valid rule.Pattern = false) :
    validateProcessingRules valid (rule :: rest) =
      .panicked ("regexp: Compile(" ++ rule.Pattern ++ "): error parsing regexp") := by
  rcases htype with h | h <;>
    simp_all [validateProcessingRules, EXCLUDE_AT_MATCH, MASK_SEQUENCES]

/-- Witness for C2: on the rule `{type: exclude_at_match, name: drop-secrets,
pattern: "("}`, with a compiler that rejects the pattern, the function
panics. -/
theorem validateProcessingRules_invalid_pattern_panics_witness :
    validateProcessingRules (fun _ => false) [badPatternRule] =
      .panicked ("regexp: Compile(" ++ badPatternRule.Pattern ++ "): error parsing regexp") :=
  validateProcessingRules_invalid_pattern_panics (fun _ => false) badPatternRule []
    (by decide) (Or.inl rfl) rfl

/-- C6: with every earlier rule well formed, `validateProcessingRules` errors
on the first rule with an empty name regardless of that rule's type, and on
the first rule with an unrecognised type, distinguishing the empty-type
message from the unsupported-type message. -/
theorem validateProcessingRules_first_error
    (valid : String → Bool) (pre : List LogsProcessingRule)
    (r : LogsProcessingRule) (rest : List LogsProcessingRule)
    (hpre : ∀ p ∈ pre, p.Name ≠ "" ∧
      (p.«Type» = EXCLUDE_AT_MATCH ∨ p.«Type» = MASK_SEQUENCES) ∧ valid p.Pattern = true) :
    (r.Name = "" →
      validateProcessingRules valid (pre ++ r :: rest) =
        .err "LogsAgent misconfigured: all log processing rules need a name") ∧
    (r.Name ≠ "" → r.«Type» ≠ EXCLUDE_AT_MATCH → r.«Type» ≠ MASK_SEQUENCES →
      validateProcessingRules valid (pre ++ r :: rest) =
        .err (if r.«Type» = "" then
                "LogsAgent misconfigured: type must be set for log processing rule \x60"
                  ++ r.Name ++ "\x60"
              else
                "LogsAgent misconfigured: type " ++ r.«Type»
                  ++ " is unsupported for log processing rule \x60" ++ r.Name ++ "\x60")) := by
  induction pre with
  | nil =>
    constructor
    · intro hname
      simp [validateProcessingRules, hname]
    · intro hname hexc hmask
      by_cases hempty : r.«Type» = ""
      · simp [validateProcessingRules, hname, hexc, hmask, hempty,
          EXCLUDE_AT_MATCH, MASK_SEQUENCES]
      · simp [validateProcessingRules, hname, hexc, hmask, hempty]
  | cons p pre ih =>
    obtain ⟨hn, ht, hv⟩ := hpre p (List.mem_cons_self p pre)
    have ih2 := ih (fun q hq => hpre q (List.mem_cons_of_mem p hq))
    constructor
    · intro hname
      have := ih2.1 hname
      rcases ht with h | h <;>
        simp_all [validateProcessingRules, EXCLUDE_AT_MATCH, MASK_SEQUENCES]
    · intro hname hexc hmask
      have := ih2.2 hname hexc hmask
      rcases ht with h | h <;>
        simp_all [validateProcessingRules, EXCLUDE_AT_MATCH, MASK_SEQUENCES]

/-- Witness for C6: after one well-formed rule, a nameless rule triggers the
name error, and a rule of type `bogus` triggers the unsupported-type error. -/
theorem validateProcessingRules_first_error_witness :
    validateProcessingRules (fun _ => true) [goodExcludeRule, namelessRule] =
      .err "LogsAgent misconfigured: all log processing rules need a name" ∧
    validateProcessingRules (fun _ => true) [goodExcludeRule, unsupportedRule] =
      .err (if unsupportedRule.«Type» = "" then
              "LogsAgent misconfigured: type must be set for log processing rule \x60"
                ++ unsupportedRule.Name ++ "\x60"
            else
              "LogsAgent misconfigured: type " ++ unsupportedRule.«Type»
                ++ " is unsupported for log processing rule \x60"
                ++ unsupportedRule.Name ++ "\x60") :=
  ⟨(validateProcessingRules_first_error (fun _ => true) [goodExcludeRule]
      namelessRule [] (by decide)).1 rfl,
   (validateProcessingRules_first_error (fun _ => true) [goodExcludeRule]
      unsupportedRule [] (by decide)).2 (by decide) (by decide) (by decide)⟩

/-- C10: when `validateProcessingRules` succeeds, the output has the same
length and order as the input, the fields `Type`, `Name`, `Pattern` and
`ReplacePlaceholder` of every rule are unchanged, and
`ReplacePlaceholderBytes` is assigned only for `mask_sequences` rules
(other rules keep their input value). -/
theorem validateProcessingRules_frame (valid : String → Bool)
    (rules out : List LogsProcessingRule)
    (h : validateProcessingRules valid rules = .ok out) :
    out.length = rules.length ∧
    List.Forall₂ (fun r o =>
      o.«Type» = r.«Type» ∧ o.Name = r.Name ∧ o.Pattern = r.Pattern ∧
      o.ReplacePlaceholder = r.ReplacePlaceholder ∧
      (r.«Type» = MASK_SEQUENCES → o.ReplacePlaceholderBytes = some r.ReplacePlaceholder) ∧
      (r.«Type» ≠ MASK_SEQUENCES → o.ReplacePlaceholderBytes = r.ReplacePlaceholderBytes))
      rules out := by
  induction rules generalizing out with
  | nil =>
    simp [validateProcessingRules] at h
    simp [h]
  | cons rule rest ih =>
    unfold validateProcessingRules at h
    by_cases hname : rule.Name = ""
    · rw [if_pos hname] at h
      exact absurd h (by simp)
    · rw [if_neg hname] at h
      by_cases hexc : rule.«Type» = EXCLUDE_AT_MATCH
      · rw [if_pos hexc] at h
        by_cases hv : valid rule.Pattern
        · rw [if_pos hv] at h
          rcases hrec : validateProcessingRules valid rest with rs | e | e <;>
            simp only [hrec] at h
          · injection h with h
            subst h
            obtain ⟨hlen, hall⟩ := ih rs hrec
            refine ⟨by simp [hlen], List.Forall₂.cons ?_ hall⟩
            exact ⟨rfl, rfl, rfl, rfl,
              fun hm => absurd (hexc ▸ hm) (by simp [EXCLUDE_AT_MATCH, MASK_SEQUENCES]),
              fun _ => rfl⟩
          · exact absurd h (by simp)
          · exact absurd h (by simp)
        · rw [if_neg hv] at h
          exact absurd h (by simp)
      · rw [if_neg hexc] at h
        by_cases hmask : rule.«Type» = MASK_SEQUENCES
        · rw [if_pos hmask] at h
          by_cases hv : valid rule.Pattern
          · rw [if_pos hv] at h
            rcases hrec : validateProcessingRules valid rest with rs | e | e <;>
              simp only [hrec] at h
            · injection h with h
              subst h
              obtain ⟨hlen, hall⟩ := ih rs hrec
              refine ⟨by simp [hlen], List.Forall₂.cons ?_ hall⟩
              exact ⟨rfl, rfl, rfl, rfl, fun _ => rfl, fun hc => absurd hmask hc⟩
            · exact absurd h (by simp)
            · exact absurd h (by simp)
          · rw [if_neg hv] at h
            exact absurd h (by simp)
        · rw [if_neg hmask] at h
          by_cases hempty : rule.«Type» = ""
          · rw [if_pos hempty] at h
            exact absurd h (by simp)
          · rw [if_neg hempty] at h
            exact absurd h (by simp)

/-- Witness for C10: a successful run on an exclusion rule followed by a
masking rule preserves length, order and the non-derived fields. -/
theorem validateProcessingRules_frame_witness :
    ([{ goodExcludeRule with Reg := some "a+" },
      { maskRuleSample with
        Reg := some "[0-9]+"
        ReplacePlaceholderBytes := some "[masked]" }].length =
      [goodExcludeRule, maskRuleSample].length) ∧
    List.Forall₂ (fun r o =>
      o.«Type» = r.«Type» ∧ o.Name = r.Name ∧ o.Pattern = r.Pattern ∧
      o.ReplacePlaceholder = r.ReplacePlaceholder ∧
      (r.«Type» = MASK_SEQUENCES → o.ReplacePlaceholderBytes = some r.ReplacePlaceholder) ∧
      (r.«Type» ≠ MASK_SEQUENCES → o.ReplacePlaceholderBytes = r.ReplacePlaceholderBytes))
      [goodExcludeRule, maskRuleSample]
      [{ goodExcludeRule with Reg := some "a+" },
       { maskRuleSample with
         Reg := some "[0-9]+"
         ReplacePlaceholderBytes := some "[masked]" }] :=
  validateProcessingRules_frame (fun _ => true) [goodExcludeRule, maskRuleSample]
    [{ goodExcludeRule with Reg := some "a+" },
     { maskRuleSample with
       Reg := some "[0-9]+"
       ReplacePlaceholderBytes := some "[masked]" }] (by decide)

/-- C7: for a successfully listed directory, `availableIntegrationConfigs`
returns exactly the extension-stripped base names of the `.yaml` entries whose
base name is not the reserved deprecated-config name, in listing order; in
particular it never returns the deprecated-config name. -/
theorem availableIntegrationConfigs_spec (deprecatedConfig : String)
    (files : List String) :
    availableIntegrationConfigs deprecatedConfig (.ok files) =
      (files.filter
        (fun f => decide (goExt f = ".yaml" ∧ stripExt f ≠ deprecatedConfig))).map stripExt ∧
    ∀ n ∈ availableIntegrationConfigs deprecatedConfig (.ok files),
      n ≠ deprecatedConfig := by
  have key : availableIntegrationConfigs deprecatedConfig (.ok files) =
      (files.filter
        (fun f => decide (goExt f = ".yaml" ∧ stripExt f ≠ deprecatedConfig))).map stripExt := by
    simpa [availableIntegrationConfigs] using
      availableIntegrationConfigs_foldl deprecatedConfig files []
  refine ⟨key, ?_⟩
  intro n hn
  rw [key] at hn
  simp only [List.mem_map, List.mem_filter, decide_eq_true_eq] at hn
  obtain ⟨f, ⟨-, -, hne⟩, rfl⟩ := hn
  exact hne

/-- Witness for C7: with reserved name `old_logs`, the listing
`[nginx.yaml, old_logs.yaml, notes.txt, redis.yaml]` yields `[nginx, redis]`,
and the returned name `nginx` is not the reserved name. -/
theorem availableIntegrationConfigs_spec_witness :
    availableIntegrationConfigs "old_logs"
      (.ok ["nginx.yaml", "old_logs.yaml", "notes.txt", "redis.yaml"]) =
      ((["nginx.yaml", "old_logs.yaml", "notes.txt", "redis.yaml"].filter
        (fun f => decide (goExt f = ".yaml" ∧ stripExt f ≠ "old_logs"))).map stripExt) ∧
    "nginx" ≠ "old_logs" :=
  ⟨(availableIntegrationConfigs_spec "old_logs"
      ["nginx.yaml", "old_logs.yaml", "notes.txt", "redis.yaml"]).1,
   (availableIntegrationConfigs_spec "old_logs"
      ["nginx.yaml", "old_logs.yaml", "notes.txt", "redis.yaml"]).2 "nginx" (by decide)⟩

/-- C8: when the directory listing fails, discovery yields no names, the load
succeeds, and the registry slot is set to the empty source list. -/
theorem buildLogsAgentIntegrationsConfig_missing_dir (valid : String → Bool)
    (parse : String → Except String IntegrationConfig)
    (deprecatedConfig : String) (slot : Option (List IntegrationConfigLogSource))
    (e : String) :
    buildLogsAgentIntegrationsConfig valid (.error e) parse deprecatedConfig slot =
      (some [], .ok ()) := rfl

/-- A file whose parse and whose sources' processing both succeed: the outer
loop of `buildLogsAgentIntegrationsConfig` passes over it without returning. -/
def fileOk (valid : String → Bool)
    (parse : String → Except String IntegrationConfig) (g : String) : Prop :=
  ∃ cfg ss, parse g = .ok cfg ∧ processSources valid cfg.Logs = .ok ss

/-- A log source whose validation, rule compilation and payload construction
all succeed: the inner loop passes over it without returning. -/
def sourceOk (valid : String → Bool) (t : IntegrationConfigLogSource) : Prop :=
  ∃ t2, processSource valid t = .ok t2

/-- Sources that process successfully before a failing tail do not mask the
tail's error: the inner loop propagates the first error unchanged. -/
theorem processSources_append_err (valid : String → Bool)
    (spre l : List IntegrationConfigLogSource) (e : String)
    (hpre : ∀ t ∈ spre, sourceOk valid t)
    (hl : processSources valid l = .err e) :
    processSources valid (spre ++ l) = .err e := by
  induction spre with
  | nil => simpa using hl
  | cons t ts ih =>
    obtain ⟨t2, ht⟩ := hpre t (List.mem_cons_self t ts)
    have ihh := ih (fun q hq => hpre q (List.mem_cons_of_mem t hq))
    rw [List.cons_append]
    unfold processSources
    simp only [ht, ihh]

/-- Files that process successfully before a failing tail do not mask the
tail's error: the outer loop propagates the first error unchanged. -/
theorem processFiles_append_err (valid : String → Bool)
    (parse : String → Except String IntegrationConfig)
    (pre l : List String) (e : String)
    (hpre : ∀ g ∈ pre, fileOk valid parse g)
    (hl : processFiles valid parse l = .err e) :
    processFiles valid parse (pre ++ l) = .err e := by
  induction pre with
  | nil => simpa using hl
  | cons g gs ih =>
    obtain ⟨cfg, ss, hg, hss⟩ := hpre g (List.mem_cons_self g gs)
    have ihh := ih (fun q hq => hpre q (List.mem_cons_of_mem g hq))
    rw [List.cons_append]
    unfold processFiles
    simp only [hg, hss, ihh]

/-- A file source missing its path: `validateSource` rejects it. -/
def badPathSource : IntegrationConfigLogSource :=
  { emptyLogSource with «Type» := "file", Path := "" }

/-- A valid file source carrying a nameless processing rule:
`validateProcessingRules` rejects it. -/
def badRuleSource : IntegrationConfigLogSource :=
  { emptyLogSource with
    «Type» := "file", Path := "/var/log/z.log"
    ProcessingRules := [namelessRule] }

/-- Parse scenario: file `a` is fine, every other file fails to parse. -/
def parseScenarioB : String → Except String IntegrationConfig := fun f =>
  if f = "a" then .ok ⟨[fileSourceA1]⟩ else .error "parse failure"

/-- Parse scenario: file `a` is fine, file `c` holds a good source followed
by a source with an empty path. -/
def parseScenarioC : String → Except String IntegrationConfig := fun f =>
  if f = "a" then .ok ⟨[fileSourceA1]⟩
  else if f = "c" then .ok ⟨[fileSourceA2, badPathSource]⟩
  else .error "unknown file"

/-- Parse scenario: file `a` is fine, file `d` holds a source whose
processing rule has no name. -/
def parseScenarioD : String → Except String IntegrationConfig := fun f =>
  if f = "a" then .ok ⟨[fileSourceA1]⟩
  else if f = "d" then .ok ⟨[badRuleSource]⟩
  else .error "unknown file"

/-- C4: whenever the load operation fails, the registry slot keeps its
previous value — no partial source list is stored; and the operation aborts
immediately at the first failing file/source: with every earlier file fully
processed, a parse failure returns that parse error, and with every earlier
source of the failing file fully processed, a source-validation failure
returns that validation error and a rule-validation failure returns that
rule error — in each case whatever the remaining files and sources hold. -/
theorem buildLogsAgentIntegrationsConfig_error_keeps_slot (valid : String → Bool)
    (readDir : Except String (List String))
    (parse : String → Except String IntegrationConfig)
    (deprecatedConfig : String) (slot : Option (List IntegrationConfigLogSource))
    (pre : List String) (f : String) (rest : List String)
    (cfg : IntegrationConfig)
    (spre : List IntegrationConfigLogSource) (s : IntegrationConfigLogSource)
    (srest : List IntegrationConfigLogSource) (e : String) :
    ((buildLogsAgentIntegrationsConfig valid readDir parse deprecatedConfig slot).2 ≠
        .ok () →
      (buildLogsAgentIntegrationsConfig valid readDir parse deprecatedConfig slot).1 =
        slot) ∧
    (availableIntegrationConfigs deprecatedConfig readDir = pre ++ f :: rest →
      (∀ g ∈ pre, fileOk valid parse g) →
      ((parse f = .error e →
        buildLogsAgentIntegrationsConfig valid readDir parse deprecatedConfig slot =
          (slot, .err e)) ∧
       (parse f = .ok cfg → cfg.Logs = spre ++ s :: srest →
        (∀ t ∈ spre, sourceOk valid t) →
        ((validateSource s = some e →
          buildLogsAgentIntegrationsConfig valid readDir parse deprecatedConfig slot =
            (slot, .err e)) ∧
         (validateSource s = none →
          validateProcessingRules valid s.ProcessingRules = .err e →
          buildLogsAgentIntegrationsConfig valid readDir parse deprecatedConfig slot =
            (slot, .err e)))))) := by
  constructor
  · intro h
    unfold buildLogsAgentIntegrationsConfig at h ⊢
    rcases hp : processFiles valid parse
        (availableIntegrationConfigs deprecatedConfig readDir) with out | e2 | e2 <;>
      simp [hp] at h ⊢
  · intro hnames hpre
    constructor
    · intro hparse
      have hfile : processFiles valid parse (f :: rest) = .err e := by
        unfold processFiles
        simp only [hparse]
      have hall := processFiles_append_err valid parse pre (f :: rest) e hpre hfile
      simp [buildLogsAgentIntegrationsConfig, hnames, hall]
    · intro hparsef hlogs hspre
      have key : ∀ msg, processSource valid s = .err msg →
          buildLogsAgentIntegrationsConfig valid readDir parse deprecatedConfig slot =
            (slot, .err msg) := by
        intro msg hps
        have hsrest : processSources valid (s :: srest) = .err msg := by
          unfold processSources
          simp only [hps]
        have hss : processSources valid cfg.Logs = .err msg := by
          rw [hlogs]
          exact processSources_append_err valid spre (s :: srest) msg hspre hsrest
        have hfile : processFiles valid parse (f :: rest) = .err msg := by
          unfold processFiles
          simp only [hparsef, hss]
        have hall := processFiles_append_err valid parse pre (f :: rest) msg hpre hfile
        simp [buildLogsAgentIntegrationsConfig, hnames, hall]
      constructor
      · intro hv
        refine key e ?_
        unfold processSource
        simp only [hv]
      · intro hv hr
        refine key e ?_
        unfold processSource
        simp only [hv, hr]

/-- Witness for C4: after the fully processed file `a`, a parse failure, a
missing-path source (itself after a fully processed source) and a nameless
processing rule each abort the load with exactly their own error, leaving a
previously stored slot value unchanged. -/
theorem buildLogsAgentIntegrationsConfig_error_keeps_slot_witness :
    buildLogsAgentIntegrationsConfig (fun _ => true) (.ok ["a.yaml", "x.yaml"])
      parseScenarioB "old_logs" (some [fileSourceA1]) =
      (some [fileSourceA1], .err "parse failure") ∧
    buildLogsAgentIntegrationsConfig (fun _ => true) (.ok ["a.yaml", "c.yaml"])
      parseScenarioC "old_logs" (some [fileSourceA1]) =
      (some [fileSourceA1], .err "A file source must have a path") ∧
    buildLogsAgentIntegrationsConfig (fun _ => true) (.ok ["a.yaml", "d.yaml"])
      parseScenarioD "old_logs" (some [fileSourceA1]) =
      (some [fileSourceA1],
        .err "LogsAgent misconfigured: all log processing rules need a name") ∧
    (buildLogsAgentIntegrationsConfig (fun _ => true) (.ok ["a.yaml", "x.yaml"])
      parseScenarioB "old_logs" (some [fileSourceA1])).1 = some [fileSourceA1] :=
  ⟨(((buildLogsAgentIntegrationsConfig_error_keeps_slot (fun _ => true)
      (.ok ["a.yaml", "x.yaml"]) parseScenarioB "old_logs" (some [fileSourceA1])
      ["a"] "x" [] ⟨[]⟩ [] emptyLogSource [] "parse failure").2 rfl
      (by
        intro g hg
        rw [List.mem_singleton] at hg
        subst hg
        exact ⟨_, _, rfl, rfl⟩)).1 rfl),
   (((buildLogsAgentIntegrationsConfig_error_keeps_slot (fun _ => true)
      (.ok ["a.yaml", "c.yaml"]) parseScenarioC "old_logs" (some [fileSourceA1])
      ["a"] "c" [] ⟨[fileSourceA2, badPathSource]⟩ [fileSourceA2] badPathSource []
      "A file source must have a path").2 rfl
      (by
        intro g hg
        rw [List.mem_singleton] at hg
        subst hg
        exact ⟨_, _, rfl, rfl⟩)).2 rfl rfl
      (by
        intro t ht
        rw [List.mem_singleton] at ht
        subst ht
        exact ⟨_, rfl⟩)).1 rfl,
   (((buildLogsAgentIntegrationsConfig_error_keeps_slot (fun _ => true)
      (.ok ["a.yaml", "d.yaml"]) parseScenarioD "old_logs" (some [fileSourceA1])
      ["a"] "d" [] ⟨[badRuleSource]⟩ [] badRuleSource []
      "LogsAgent misconfigured: all log processing rules need a name").2 rfl
      (by
        intro g hg
        rw [List.mem_singleton] at hg
        subst hg
        exact ⟨_, _, rfl, rfl⟩)).2 rfl rfl
      (by
        intro t ht
        exact absurd ht (List.not_mem_nil t))).2 rfl rfl,
   (buildLogsAgentIntegrationsConfig_error_keeps_slot (fun _ => true)
      (.ok ["a.yaml", "x.yaml"]) parseScenarioB "old_logs" (some [fileSourceA1])
      ["a"] "x" [] ⟨[]⟩ [] emptyLogSource [] "parse failure").1 (by decide)⟩

/-- C5: on a successful load, the registry slot holds exactly the enriched
log sources of every discovered file, concatenated in file discovery order
and, within each file, in source declaration order. -/
theorem buildLogsAgentIntegrationsConfig_success_aggregates (valid : String → Bool)
    (readDir : Except String (List String))
    (parse : String → Except String IntegrationConfig)
    (deprecatedConfig : String) (slot : Option (List IntegrationConfigLogSource))
    (h : (buildLogsAgentIntegrationsConfig valid readDir parse deprecatedConfig slot).2 =
      .ok ()) :
    (buildLogsAgentIntegrationsConfig valid readDir parse deprecatedConfig slot).1 =
      some ((availableIntegrationConfigs deprecatedConfig readDir).flatMap
        (processedLogsOf valid parse)) := by
  unfold buildLogsAgentIntegrationsConfig at h ⊢
  rcases hp : processFiles valid parse
      (availableIntegrationConfigs deprecatedConfig readDir) with out | e | e <;>
    simp [hp] at h ⊢
  exact processFiles_ok_eq valid parse _ out hp

/-- Witness for C5: two files discovered in order `a`, `b`, holding sources
`[fileSourceA1, fileSourceA2]` and `[tcpSourceB1]`, load successfully and the
slot holds their enriched sources in that exact order. -/
theorem buildLogsAgentIntegrationsConfig_success_aggregates_witness :
    (buildLogsAgentIntegrationsConfig (fun _ => true) (.ok ["a.yaml", "b.yaml"])
      sampleParse "old_logs" none).2 = .ok () ∧
    (buildLogsAgentIntegrationsConfig (fun _ => true) (.ok ["a.yaml", "b.yaml"])
      sampleParse "old_logs" none).1 =
      some ((availableIntegrationConfigs "old_logs"
        (.ok ["a.yaml", "b.yaml"])).flatMap
          (processedLogsOf (fun _ => true) sampleParse)) :=
  ⟨by decide,
   buildLogsAgentIntegrationsConfig_success_aggregates (fun _ => true)
     (.ok ["a.yaml", "b.yaml"]) sampleParse "old_logs" none (by decide)⟩
